import Mathlib

/-!
# Verification of the RFID reader-service ingestion core

Shallow embedding of the reader service's data model and pipeline:
`models/read.py`, `models/reader.py`, `utils/filtering.py`,
`utils/deduplication.py` and `services/read_processor.py`, with theorems
checking the specification's claims against it.

Numeric values (timestamps, dBm signal strengths, scores) are embedded as
rationals; Python `datetime` values as a wall-clock number of seconds plus a
timezone tag.
-/

namespace RFID

/-- A Python `tzinfo` value as the `Read` model observes it: either
`timezone.utc` or anything else (`None` or a non-UTC timezone). -/
inductive TZ where
  | utc
  | nonUtc
  deriving DecidableEq, Repr

/-- A Python `datetime`: the naive wall-clock instant (seconds, as a
rational) together with its `tzinfo` tag.  `replace(tzinfo=...)` changes
only the tag, never the wall-clock value. -/
structure DateTime where
  wall : ℚ
  tz : TZ
  deriving DecidableEq, Repr

/-- `datetime.replace(tzinfo=timezone.utc)`: re-tag, keep the clock value. -/
def DateTime.replaceTzUtc (d : DateTime) : DateTime :=
  { d with tz := TZ.utc }

/-- `datetime.timestamp()` for the UTC-tagged datetimes the pipeline holds:
the wall-clock value in seconds. -/
def DateTime.timestamp (d : DateTime) : ℚ :=
  d.wall

/-- `models/read.py` constant `MIN_SIGNAL_STRENGTH`. -/
def MIN_SIGNAL_STRENGTH : ℚ := -70

/-- `models/read.py` constant `MAX_SIGNAL_STRENGTH`. -/
def MAX_SIGNAL_STRENGTH : ℚ := -20

/-- One character of the class `[A-Fa-f0-9]` of `RFID_TAG_PATTERN`. -/
def isHexChar (c : Char) : Bool :=
  (decide ('A' ≤ c) && decide (c ≤ 'F')) ||
  (decide ('a' ≤ c) && decide (c ≤ 'f')) ||
  (decide ('0' ≤ c) && decide (c ≤ '9'))

/-- `Read._TAG_PATTERN.match(tag)` for the pattern `^[A-Fa-f0-9]{24}$`,
with Python `re` semantics: `re.Pattern.match` anchors at the start, and
`$` matches at the end of the string or just before one final newline, so
24 hex characters optionally followed by a single `'\n'` match. -/
def tagPatternMatch (s : String) : Bool :=
  let cs := s.data
  (decide (cs.length = 24) && cs.all isHexChar) ||
  (decide (cs.length = 25) && (cs.take 24).all isHexChar &&
    decide (cs.getLast? = some '\n'))

/-- `Read.validate_signal_strength`: `(is_valid, error_message)`.  The
`float` conversion always succeeds on the rationals of this embedding. -/
def validate_signal_strength (signal_strength : ℚ) : Bool × String :=
  if signal_strength < MIN_SIGNAL_STRENGTH then
    (false, "Signal strength is below minimum")
  else if signal_strength > MAX_SIGNAL_STRENGTH then
    (false, "Signal strength exceeds maximum")
  else
    (true, "")

/-- A character Python's `str.strip()` removes (the ASCII whitespace set). -/
def pyIsSpace (c : Char) : Bool :=
  c = ' ' || c = '\t' || c = '\n' || c = '\r' || c = '\x0b' || c = '\x0c'

/-- Truthiness of `reader_id.strip()`: some character survives stripping. -/
def stripTruthy (s : String) : Bool :=
  s.data.any (fun c => !(pyIsSpace c))

/-- The `Read` value of `models/read.py`: one RFID tag sighting.  The
128-bit random `id` is embedded as a natural number. -/
structure Read where
  id : ℕ
  rfid_tag : String
  reader_id : String
  signal_strength : ℚ
  read_time : DateTime
  is_processed : Bool
  deriving DecidableEq, Repr

/-- Construction of a `Read`, i.e. the dataclass `__init__` followed by
`Read.__post_init__`: tag format, signal range and reader-id checks in the
source's order, then the silent re-tagging of a non-UTC `read_time` as UTC
(`replace(tzinfo=timezone.utc)`, no clock conversion). -/
def mkRead (id : ℕ) (rfid_tag reader_id : String) (signal_strength : ℚ)
    (read_time : DateTime) (is_processed : Bool) : Except String Read :=
  if ¬ tagPatternMatch rfid_tag then
    .error "Invalid RFID tag format. Must be 24 hex characters."
  else if ¬ (validate_signal_strength signal_strength).1 then
    .error (validate_signal_strength signal_strength).2
  else if ¬ stripTruthy reader_id then
    .error "Reader ID cannot be empty"
  else
    .ok { id := id, rfid_tag := rfid_tag, reader_id := reader_id,
          signal_strength := signal_strength,
          read_time := if read_time.tz ≠ TZ.utc then read_time.replaceTzUtc
                       else read_time,
          is_processed := is_processed }

/-! ## `models/reader.py` -/

/-- `ReaderStatus` enumeration. -/
inductive ReaderStatus where
  | ONLINE
  | OFFLINE
  | ERROR
  | MAINTENANCE
  deriving DecidableEq, Repr

/-- `PowerLevel` enumeration. -/
inductive PowerLevel where
  | LOW
  | MEDIUM
  | HIGH
  deriving DecidableEq, Repr

/-- `PowerLevel.get_dbm_range`. -/
def PowerLevel.get_dbm_range : PowerLevel → ℚ × ℚ
  | .LOW => (-70, -55)
  | .MEDIUM => (-55, -35)
  | .HIGH => (-35, -20)

/-- `STATUS_TRANSITION_MATRIX` of `models/reader.py`, as the list of
allowed targets of each source status.  `update_status` consults it with
`.get(status, [])`; every status is a key, so the default never fires. -/
def STATUS_TRANSITION_MATRIX : ReaderStatus → List ReaderStatus
  | .OFFLINE => [.ONLINE, .MAINTENANCE]
  | .ONLINE => [.OFFLINE, .ERROR, .MAINTENANCE]
  | .ERROR => [.OFFLINE, .MAINTENANCE]
  | .MAINTENANCE => [.OFFLINE]

/-- One entry of `Reader.status_history`.  The source appends plain dicts
with differing key sets: the initial entry from `__post_init__` holds the
keys `timestamp`, `status`, `reason`; entries from `update_status` hold
`timestamp`, `old_status`, `new_status`, `reason`.  Each status key is
embedded as an `Option` (`none` = the key is absent, so a lookup raises
`KeyError`). -/
structure HistoryEntry where
  timestamp : DateTime
  status : Option ReaderStatus
  old_status : Option ReaderStatus
  new_status : Option ReaderStatus
  reason : String
  deriving DecidableEq, Repr

/-- `entry["new_status"]`: the dict lookup, raising `KeyError` when the
entry was written without that key. -/
def HistoryEntry.getNewStatus (e : HistoryEntry) : Except String ReaderStatus :=
  match e.new_status with
  | some s => .ok s
  | none => .error "KeyError: new_status"

/-- `Reader.health_metrics`, with the default values of the field factory. -/
structure HealthMetrics where
  read_success_rate : ℚ
  signal_strength_avg : ℚ
  network_latency_ms : ℚ
  error_count : ℕ
  total_reads : ℕ
  deriving DecidableEq, Repr

/-- The factory default of `Reader.health_metrics`. -/
def defaultHealthMetrics : HealthMetrics :=
  { read_success_rate := 100, signal_strength_avg := -45,
    network_latency_ms := 0, error_count := 0, total_reads := 0 }

/-- The `Reader` aggregate of `models/reader.py`.  Prometheus metrics and
the protobuf round-trip are outside the embedded surface. -/
structure Reader where
  id : ℕ
  name : String
  ip_address : String
  port : ℤ
  power_level : PowerLevel
  read_interval_ms : ℤ
  status : ReaderStatus
  filtering_enabled : Bool
  last_heartbeat : DateTime
  status_history : List HistoryEntry
  health_metrics : HealthMetrics
  deriving DecidableEq, Repr

/-- One component of the dotted quad: 1 to 3 characters of `[0-9]`. -/
def ipOctet (cs : List Char) : Bool :=
  decide (1 ≤ cs.length) && decide (cs.length ≤ 3) && cs.all Char.isDigit

/-- Split a character list at every `'.'` (the groups between dots). -/
def splitOnDot : List Char → List (List Char)
  | [] => [[]]
  | c :: rest =>
    if c = '.' then [] :: splitOnDot rest
    else
      match splitOnDot rest with
      | [] => [[c]]
      | g :: gs => (c :: g) :: gs

/-- `re.match(IP_ADDRESS_PATTERN, ip)` for
`^(?:[0-9]{1,3}\.){3}[0-9]{1,3}$`: four 1-3 digit groups separated by dots,
`$` again admitting one final newline. -/
def ipPatternMatch (s : String) : Bool :=
  match splitOnDot s.data with
  | [a, b, c, d] =>
      ipOctet a && ipOctet b && ipOctet c &&
      (ipOctet d ||
        (decide (d.getLast? = some '\n') && ipOctet (d.dropLast)))
  | _ => false

/-- Construction of a `Reader` (`__init__` plus `Reader.__post_init__`):
IP, port and read-interval validation, then the initial `status_history`
entry, which is written with the key `status` and NO `new_status` key. -/
def mkReader (id : ℕ) (name ip_address : String) (port : ℤ)
    (power_level : PowerLevel) (read_interval_ms : ℤ) (status : ReaderStatus)
    (filtering_enabled : Bool) (now : DateTime) : Except String Reader :=
  if ¬ ipPatternMatch ip_address then
    .error "Invalid IP address format"
  else if ¬ (1 ≤ port ∧ port ≤ 65535) then
    .error "Port must be between 1 and 65535"
  else if read_interval_ms < 100 then
    .error "Read interval must be at least 100ms"
  else
    .ok { id := id, name := name, ip_address := ip_address, port := port,
          power_level := power_level, read_interval_ms := read_interval_ms,
          status := status, filtering_enabled := filtering_enabled,
          last_heartbeat := now,
          status_history := [{ timestamp := now, status := some status,
                               old_status := none, new_status := none,
                               reason := "Initial configuration" }],
          health_metrics := defaultHealthMetrics }

/-- `Reader.update_status`: enforce the transition matrix; on success set
the status, refresh `last_heartbeat`, append the history entry
`{timestamp, old_status, new_status, reason}` and bump `error_count` when
entering `ERROR`. -/
def Reader.update_status (r : Reader) (new_status : ReaderStatus)
    (reason : String) (now : DateTime) : Except String Reader :=
  if new_status ∉ STATUS_TRANSITION_MATRIX r.status then
    .error "Invalid status transition"
  else
    let old_status := r.status
    .ok { r with
          status := new_status,
          last_heartbeat := now,
          status_history := r.status_history ++
            [{ timestamp := now, status := none,
               old_status := some old_status, new_status := some new_status,
               reason := reason }],
          health_metrics :=
            if new_status = ReaderStatus.ERROR then
              { r.health_metrics with
                error_count := r.health_metrics.error_count + 1 }
            else r.health_metrics }

/-- The dict `Reader.is_healthy` returns. -/
structure HealthStatus where
  status : ReaderStatus
  is_online : Bool
  heartbeat_age_seconds : ℚ
  heartbeat_ok : Bool
  power_level : PowerLevel
  metrics : HealthMetrics
  last_error : Option HistoryEntry
  signal_strength_ok : Bool
  deriving DecidableEq, Repr

/-- `HEARTBEAT_THRESHOLD_SECONDS` of `models/reader.py`. -/
def HEARTBEAT_THRESHOLD_SECONDS : ℚ := 60

/-- The generator
`next((entry for entry in reversed(history) if entry["new_status"] == ERROR), None)`:
scan the reversed history; each inspected entry's `new_status` lookup may
raise `KeyError` (the initial entry has no such key). -/
def findLastErrorEntry : List HistoryEntry → Except String (Option HistoryEntry)
  | [] => .ok none
  | e :: rest =>
    match e.getNewStatus with
    | .error msg => .error msg
    | .ok s =>
      if s = ReaderStatus.ERROR then .ok (some e) else findLastErrorEntry rest

/-- `Reader.is_healthy`.  Faithful to the source: the `last_error` scan
raises `KeyError` once it reaches the initial history entry, and
`signal_strength_ok` is `validate_signal_strength(signal_strength_avg)`
against the global range — the `(min_dbm, max_dbm)` pair read from
`power_level.get_dbm_range()` is bound but never used. -/
def Reader.is_healthy (r : Reader) (now : DateTime) :
    Except String HealthStatus :=
  let heartbeat_age := now.wall - r.last_heartbeat.wall
  let lastErrorResult :=
    if r.status_history.isEmpty then .ok none
    else findLastErrorEntry r.status_history.reverse
  match lastErrorResult with
  | .error msg => .error msg
  | .ok last_error =>
    let _dbm_range := r.power_level.get_dbm_range
    let signal_valid := (validate_signal_strength
      r.health_metrics.signal_strength_avg).1
    .ok { status := r.status,
          is_online := r.status = ReaderStatus.ONLINE,
          heartbeat_age_seconds := heartbeat_age,
          heartbeat_ok := heartbeat_age ≤ HEARTBEAT_THRESHOLD_SECONDS,
          power_level := r.power_level,
          metrics := r.health_metrics,
          last_error := last_error,
          signal_strength_ok := signal_valid }

/-! ## `utils/deduplication.py`

The `_read_buffer` dict (tag → list of recent reads) is embedded as an
association list in Python dict insertion order; the Prometheus counters,
gauge and the mutex are outside the embedded surface (`process_reads` runs
its whole body under the single buffer lock). -/

/-- The per-tag read buffer: `Dict[str, List[Read]]` in insertion order. -/
abbrev ReadBuffer := List (String × List Read)

/-- `self._read_buffer.get(tag, [])`. -/
def bufGet : ReadBuffer → String → List Read
  | [], _ => []
  | (t, rs) :: rest, tag => if t = tag then rs else bufGet rest tag

/-- `if tag not in buffer: buffer[tag] = []` followed by
`buffer[tag].append(read)`: append to the existing bucket in place, or add
a new key at the end of the dict. -/
def bufAppend : ReadBuffer → String → Read → ReadBuffer
  | [], tag, r => [(tag, [r])]
  | (t, rs) :: rest, tag, r =>
    if t = tag then (t, rs ++ [r]) :: rest else (t, rs) :: bufAppend rest tag r

/-- `sum(len(reads) for reads in self._read_buffer.values())`. -/
def bufTotal : ReadBuffer → ℕ
  | [] => 0
  | (_, rs) :: rest => rs.length + bufTotal rest

/-- The `ReadDeduplicator` state (constructor-validated parameters plus the
buffer). -/
structure ReadDeduplicator where
  time_window_seconds : ℚ
  signal_threshold_dbm : ℚ
  max_buffer_size : ℕ
  read_buffer : ReadBuffer
  deriving DecidableEq, Repr

/-- `ReadDeduplicator.__init__` with an empty buffer (parameter validation:
positive window and buffer size, non-negative threshold). -/
def mkDeduplicator (time_window_seconds signal_threshold_dbm : ℚ)
    (max_buffer_size : ℕ) : Except String ReadDeduplicator :=
  if time_window_seconds ≤ 0 then .error "Time window must be positive"
  else if signal_threshold_dbm < 0 then
    .error "Signal threshold must be non-negative"
  else if max_buffer_size = 0 then .error "Buffer size must be positive"
  else .ok { time_window_seconds := time_window_seconds,
             signal_threshold_dbm := signal_threshold_dbm,
             max_buffer_size := max_buffer_size, read_buffer := [] }

/-- `ReadDeduplicator._is_duplicate`: out-of-range signal strengths are
never duplicates; then the time-window check (`>` window ⇒ distinct) and
the strict signal-difference check (`< threshold` ⇒ duplicate). -/
def ReadDeduplicator.is_duplicate (dd : ReadDeduplicator)
    (read existing_read : Read) : Bool :=
  if ¬ (validate_signal_strength read.signal_strength).1 then false
  else if ¬ (validate_signal_strength existing_read.signal_strength).1 then
    false
  else if |read.read_time.timestamp - existing_read.read_time.timestamp| >
      dd.time_window_seconds then false
  else
    decide (|read.signal_strength - existing_read.signal_strength| <
      dd.signal_threshold_dbm)

/-- `ReadDeduplicator._clean_buffer`: keep only reads newer than
`now - time_window`, then drop tags whose bucket became empty. -/
def ReadDeduplicator.clean_buffer (dd : ReadDeduplicator) (now : ℚ) :
    ReadDeduplicator :=
  let cutoff := now - dd.time_window_seconds
  { dd with read_buffer :=
      ((dd.read_buffer.map
          (fun p => (p.1, p.2.filter
            (fun r => decide (r.read_time.timestamp > cutoff))))).filter
        (fun p => ¬ p.2.isEmpty)) }

/-- The `for read in reads` loop of `ReadDeduplicator.process_reads`.  At
each iteration the total buffer size is recomputed; at the cap the loop
`break`s, dropping every remaining read of the batch.  Returns the emitted
reads (in arrival order) and the final buffer. -/
def dedupLoop (dd : ReadDeduplicator) :
    ReadBuffer → List Read → List Read × ReadBuffer
  | buf, [] => ([], buf)
  | buf, read :: rest =>
    if bufTotal buf ≥ dd.max_buffer_size then ([], buf)
    else
      let tag_reads := bufGet buf read.rfid_tag
      if tag_reads.any (fun e => dd.is_duplicate read e) then
        dedupLoop dd buf rest
      else
        let buf2 := bufAppend buf read.rfid_tag read
        let (out, buf3) := dedupLoop dd buf2 rest
        (read :: out, buf3)

/-- `ReadDeduplicator.process_reads`: the empty batch returns `[]` without
touching the buffer; otherwise clean expired reads, then run the
deduplication loop. -/
def ReadDeduplicator.process_reads (dd : ReadDeduplicator) (now : ℚ)
    (reads : List Read) : List Read × ReadDeduplicator :=
  if reads.isEmpty then ([], dd)
  else
    let dd1 := dd.clean_buffer now
    let (out, buf) := dedupLoop dd1 dd1.read_buffer reads
    (out, { dd1 with read_buffer := buf })

/-! ## `utils/filtering.py`

The `TTLCache` (`read.id → score`, TTL 300 s) is embedded as an
association list in insertion order; expiry and the size cap are
time/size bookkeeping the claims do not touch, and a lookup between
insert and expiry returns the stored score.  `asyncio.gather` of the
scoring coroutines (which never await) runs them to completion in order,
so the embedding threads the cache state left to right. -/

/-- The validation cache: `read.id → quality score`. -/
abbrev ScoreCache := List (ℕ × ℚ)

/-- `self.validation_cache.get(read.id)`. -/
def cacheGet : ScoreCache → ℕ → Option ℚ
  | [], _ => none
  | (k, v) :: rest, key => if k = key then some v else cacheGet rest key

/-- `self.validation_cache[read.id] = quality_score`: overwrite an existing
key in place, else insert at the end. -/
def cachePut : ScoreCache → ℕ → ℚ → ScoreCache
  | [], key, v => [(key, v)]
  | (k, w) :: rest, key, v =>
    if k = key then (k, v) :: rest else (k, w) :: cachePut rest key v

/-- The `ReadFilter` state (constructor-validated thresholds plus the
cache; caching is enabled by default). -/
structure ReadFilter where
  quality_threshold : ℚ
  confidence_threshold : ℚ
  batch_size : ℕ
  validation_cache : ScoreCache
  deriving DecidableEq, Repr

/-- `ReadFilter.__init__` (thresholds in `[0,1]`, positive batch size),
with an empty cache. -/
def mkReadFilter (quality_threshold confidence_threshold : ℚ)
    (batch_size : ℕ) : Except String ReadFilter :=
  if ¬ (0 ≤ quality_threshold ∧ quality_threshold ≤ 1) then
    .error "Quality threshold must be between 0.0 and 1.0"
  else if ¬ (0 ≤ confidence_threshold ∧ confidence_threshold ≤ 1) then
    .error "Confidence threshold must be between 0.0 and 1.0"
  else if batch_size < 1 then .error "Batch size must be positive"
  else .ok { quality_threshold := quality_threshold,
             confidence_threshold := confidence_threshold,
             batch_size := batch_size, validation_cache := [] }

/-- `ReadFilter.calculate_read_quality`: cache hit short-circuits;
otherwise normalize the signal, return `0.0` for an out-of-range signal,
else `0.6 · normalized + 0.4 · 1.0`, caching the result. -/
def ReadFilter.calculate_read_quality (f : ReadFilter) (read : Read) :
    ℚ × ReadFilter :=
  match cacheGet f.validation_cache read.id with
  | some cached_score => (cached_score, f)
  | none =>
    let signal_range := MAX_SIGNAL_STRENGTH - MIN_SIGNAL_STRENGTH
    let normalized_signal :=
      (read.signal_strength - MIN_SIGNAL_STRENGTH) / signal_range
    if ¬ (validate_signal_strength read.signal_strength).1 then (0, f)
    else
      let signal_weight : ℚ := 6/10
      let time_weight : ℚ := 4/10
      let time_factor : ℚ := 1
      let quality_score :=
        normalized_signal * signal_weight + time_factor * time_weight
      (quality_score,
       { f with validation_cache :=
           cachePut f.validation_cache read.id quality_score })

/-- `await asyncio.gather(*tasks)` over `calculate_read_quality`
coroutines: score each read in order, threading the cache. -/
def scoreAll (f : ReadFilter) : List Read → List ℚ × ReadFilter
  | [] => ([], f)
  | r :: rs =>
    let (q, f1) := f.calculate_read_quality r
    let (qs, f2) := scoreAll f1 rs
    (q :: qs, f2)

/-- `ReadFilter.process_batch_async`: build scoring tasks only for the
reads with a valid signal, but `zip` the resulting scores against the FULL
batch; keep the reads paired with a score `≥ quality_threshold`.  With no
valid read, return `[]`. -/
def ReadFilter.process_batch_async (f : ReadFilter) (batch : List Read) :
    List Read × ReadFilter :=
  let tasks := batch.filter
    (fun r => (validate_signal_strength r.signal_strength).1)
  if tasks.isEmpty then ([], f)
  else
    let (quality_scores, f1) := scoreAll f tasks
    (((batch.zip quality_scores).filter
        (fun p => decide (p.2 ≥ f.quality_threshold))).map Prod.fst,
     f1)

/-- `reads[i:i + batch_size]` slicing: the batch list, in order. -/
def chunkList (n : ℕ) : List Read → List (List Read)
  | [] => []
  | x :: xs => (x :: xs.take (n - 1)) :: chunkList n (xs.drop (n - 1))
termination_by l => l.length
decreasing_by simp; omega

/-- The `asyncio.gather` over `process_batch_async` tasks: process the
sub-batches in order, threading the cache. -/
def processBatches (f : ReadFilter) :
    List (List Read) → List (List Read) × ReadFilter
  | [] => ([], f)
  | b :: bs =>
    let (pb, f1) := f.process_batch_async b
    let (pbs, f2) := processBatches f1 bs
    (pb :: pbs, f2)

/-- The final loop of `apply_filters`: re-score every read of every
processed batch and keep those with `quality_score ≥ quality_threshold`. -/
def finalFilterLoop (f : ReadFilter) : List Read → List Read × ReadFilter
  | [] => ([], f)
  | r :: rs =>
    let q := (f.calculate_read_quality r).1
    let f1 := (f.calculate_read_quality r).2
    if q ≥ f.quality_threshold then
      (r :: (finalFilterLoop f1 rs).1, (finalFilterLoop f1 rs).2)
    else ((finalFilterLoop f1 rs).1, (finalFilterLoop f1 rs).2)

/-- `ReadFilter.apply_filters`: the empty batch returns `[]`; otherwise
split into sub-batches of `batch_size`, process them
(`process_batch_async`), then re-filter the combined results by
quality score. -/
def ReadFilter.apply_filters (f : ReadFilter) (reads : List Read) :
    List Read × ReadFilter :=
  if reads.isEmpty then ([], f)
  else
    let batches := chunkList f.batch_size reads
    let (processed_batches, f1) := processBatches f batches
    finalFilterLoop f1 processed_batches.flatten

/-! ## `services/read_processor.py`

The pipeline state: the bounded `asyncio.Queue` contents, the component
states and the counters.  `reads_received` and `reads_processed` are the
Prometheus counters of the same names; `drops` counts the backpressure
rejections of `process_read` (the "queue full" early return);
`errors_metric` the `processing_errors` counter; `error_counts_total` is
`sum(self._error_counts.values())` — the dict `_check_error_threshold`
reads (no code path of the source ever writes to it). -/

/-- `BATCH_SIZE` of `services/read_processor.py`. -/
def BATCH_SIZE : ℕ := 100

/-- `MAX_QUEUE_SIZE` of `services/read_processor.py`. -/
def MAX_QUEUE_SIZE : ℕ := 10000

/-- `CIRCUIT_BREAKER_THRESHOLD` of `services/read_processor.py`. -/
def CIRCUIT_BREAKER_THRESHOLD : ℚ := 15/100

/-- The `ReadProcessor` state. -/
structure ReadProcessor where
  dedup : ReadDeduplicator
  filter : ReadFilter
  queue : List Read
  maxsize : ℕ
  processed_count : ℕ
  reads_received : ℕ
  drops : ℕ
  errors_metric : ℕ
  error_counts_total : ℕ
  deriving DecidableEq, Repr

/-- `ReadProcessor.__init__` with the given configuration (components
fresh, queue empty, counters zero). -/
def mkReadProcessor (time_window_seconds signal_threshold_dbm
    quality_threshold : ℚ) (queue_size_limit : ℕ) : ReadProcessor :=
  { dedup := { time_window_seconds := time_window_seconds,
               signal_threshold_dbm := signal_threshold_dbm,
               max_buffer_size := 10000, read_buffer := [] },
    filter := { quality_threshold := quality_threshold,
                confidence_threshold := 8/10, batch_size := 100,
                validation_cache := [] },
    queue := [], maxsize := queue_size_limit,
    processed_count := 0, reads_received := 0, drops := 0,
    errors_metric := 0, error_counts_total := 0 }

/-- `ReadProcessor.process_read`: a read failing signal validation raises
`ValueError`, caught by the enclosing `except` (error metric, return
`False`) before `reads_received` is incremented; a valid read increments
`reads_received`, then is rejected without blocking when
`qsize() >= maxsize` (backpressure), else enqueued. -/
def ReadProcessor.process_read (p : ReadProcessor) (read : Read) :
    Bool × ReadProcessor :=
  if ¬ (validate_signal_strength read.signal_strength).1 then
    (false, { p with errors_metric := p.errors_metric + 1 })
  else
    let p1 := { p with reads_received := p.reads_received + 1 }
    if p1.queue.length ≥ p1.maxsize then
      (false, { p1 with drops := p1.drops + 1 })
    else
      (true, { p1 with queue := p1.queue ++ [read] })

/-- One iteration of `_processing_loop` that gathered `k` reads from the
queue head (`k` is `BATCH_SIZE`, or fewer on `BATCH_TIMEOUT`), followed by
`_process_batch`: quality filter, then deduplication, then
`processed_count`/`reads_processed` grow by the surviving count. -/
def ReadProcessor.stepBatch (p : ReadProcessor) (k : ℕ) (now : ℚ) :
    ReadProcessor :=
  let batch := p.queue.take k
  let rest := p.queue.drop k
  if batch.isEmpty then { p with queue := rest }
  else
    let (filtered_reads, f1) := p.filter.apply_filters batch
    let (deduplicated_reads, d1) := p.dedup.process_reads now filtered_reads
    { p with
      queue := rest, filter := f1, dedup := d1,
      processed_count := p.processed_count + deduplicated_reads.length }

/-- `ReadProcessor._check_error_threshold`:
`total_errors / (processed_count or 1) > CIRCUIT_BREAKER_THRESHOLD`. -/
def ReadProcessor.check_error_threshold (p : ReadProcessor) : Bool :=
  let total_errors := p.error_counts_total
  let total_processed := if p.processed_count = 0 then 1 else p.processed_count
  decide ((total_errors : ℚ) / (total_processed : ℚ) >
    CIRCUIT_BREAKER_THRESHOLD)

/-- The `except` branch of `_processing_loop` (lines 248-255): on a loop
error the error metric grows and, when `_check_error_threshold()` holds,
the loop sleeps 1 s before retrying.  Returns the pause in seconds — no
state is latched and ingress is untouched. -/
def ReadProcessor.loopErrorPauseSeconds (p : ReadProcessor) : ℚ :=
  if p.check_error_threshold then 1 else 0

/-- The observable transitions of the pipeline: an ingress call
(`process_read`) or one main-loop batch iteration. -/
inductive PStep : ReadProcessor → ReadProcessor → Prop where
  | ingress (p : ReadProcessor) (read : Read) :
      PStep p (p.process_read read).2
  | batch (p : ReadProcessor) (k : ℕ) (now : ℚ) :
      PStep p (p.stepBatch k now)

/-- States reachable from a freshly constructed processor. -/
def PReachable (p0 p : ReadProcessor) : Prop :=
  Relation.ReflTransGen PStep p0 p

/-! ## Helper lemmas: `Read` construction -/

instance {ε α : Type} [DecidableEq ε] [DecidableEq α] :
    DecidableEq (Except ε α) := fun a b =>
  match a, b with
  | .ok x, .ok y =>
    if h : x = y then .isTrue (by rw [h]) else
      .isFalse (fun hc => h (Except.ok.inj hc))
  | .error x, .error y =>
    if h : x = y then .isTrue (by rw [h]) else
      .isFalse (fun hc => h (Except.error.inj hc))
  | .ok _, .error _ => .isFalse (fun hc => Except.noConfusion hc)
  | .error _, .ok _ => .isFalse (fun hc => Except.noConfusion hc)

lemma validate_signal_fst_iff (s : ℚ) :
    (validate_signal_strength s).1 = true ↔
      MIN_SIGNAL_STRENGTH ≤ s ∧ s ≤ MAX_SIGNAL_STRENGTH := by
  unfold validate_signal_strength
  split
  next h =>
    simp only [Bool.false_eq_true, false_iff, not_and]
    intro hle _
    exact absurd h (not_lt.mpr hle)
  next h =>
    split
    next h2 =>
      simp only [Bool.false_eq_true, false_iff, not_and]
      intro _ hle
      exact absurd h2 (not_lt.mpr hle)
    next h2 =>
      simp only [true_iff]
      exact ⟨le_of_not_lt h, le_of_not_lt h2⟩

lemma mkRead_ok (id : ℕ) (tag rid : String) (s : ℚ) (rt : DateTime)
    (ip : Bool) (htag : tagPatternMatch tag = true)
    (hrid : stripTruthy rid = true) (hlo : MIN_SIGNAL_STRENGTH ≤ s)
    (hhi : s ≤ MAX_SIGNAL_STRENGTH) :
    mkRead id tag rid s rt ip =
      .ok { id := id, rfid_tag := tag, reader_id := rid,
            signal_strength := s,
            read_time := if rt.tz ≠ TZ.utc then rt.replaceTzUtc else rt,
            is_processed := ip } := by
  have hv : (validate_signal_strength s).1 = true :=
    (validate_signal_fst_iff s).mpr ⟨hlo, hhi⟩
  unfold mkRead
  simp [htag, hrid, hv]

lemma mkRead_isOk_iff (id : ℕ) (tag rid : String) (s : ℚ) (rt : DateTime)
    (ip : Bool) :
    (∃ r, mkRead id tag rid s rt ip = .ok r) ↔
      (tagPatternMatch tag = true ∧ stripTruthy rid = true ∧
       MIN_SIGNAL_STRENGTH ≤ s ∧ s ≤ MAX_SIGNAL_STRENGTH) := by
  constructor
  · rintro ⟨r, hr⟩
    by_cases htag : tagPatternMatch tag = true
    · by_cases hv : (validate_signal_strength s).1 = true
      · by_cases hrid : stripTruthy rid = true
        · exact ⟨htag, hrid, (validate_signal_fst_iff s).mp hv⟩
        · exfalso
          unfold mkRead at hr
          simp [htag, hv, hrid] at hr
      · exfalso
        unfold mkRead at hr
        simp [htag, hv] at hr
    · exfalso
      unfold mkRead at hr
      simp [htag] at hr
  · rintro ⟨htag, hrid, hlo, hhi⟩
    exact ⟨_, mkRead_ok id tag rid s rt ip htag hrid hlo hhi⟩

/-! ## Claim C2 -/

/-- C2 counterexample: `Read` construction with
`rfid_tag = "E200123456789012345678AB"`, `reader_id = " "` (a non-empty
string) and `signal_strength = -50.0` raises a validation error, although
the claim's iff (tag matches, reader_id non-empty, signal in range ⟹
success) says it must succeed: the source requires `reader_id.strip()` to
be non-empty, and `" ".strip()` is empty. -/
theorem c2_counterexample :
    tagPatternMatch "E200123456789012345678AB" = true ∧
    (" " : String) ≠ "" ∧
    MIN_SIGNAL_STRENGTH ≤ (-50 : ℚ) ∧ (-50 : ℚ) ≤ MAX_SIGNAL_STRENGTH ∧
    mkRead 0 "E200123456789012345678AB" " " (-50) ⟨0, TZ.utc⟩ false =
      .error "Reader ID cannot be empty" := by
  refine ⟨by decide, by decide, by decide, by decide, ?_⟩
  decide

/-- C2 (amended): construction of a `Read` succeeds iff `rfid_tag` matches
`^[A-Fa-f0-9]{24}$` under Python `re.match` semantics (24 hex characters,
optionally followed by one final newline), `reader_id.strip()` is
non-empty (some non-whitespace character — not merely a non-empty string),
and `-70.0 ≤ signal_strength ≤ -20.0`; construction with the valid tag
`"E200123456789012345678AB"`, `reader_id="r1"` and `signal_strength=-50.0`
succeeds, and the same construction with `signal_strength=-70.01` fails
with a validation error. -/
theorem c2_read_validation (id : ℕ) (tag rid : String) (s : ℚ)
    (rt : DateTime) (ip : Bool) :
    ((∃ r, mkRead id tag rid s rt ip = .ok r) ↔
      (tagPatternMatch tag = true ∧ stripTruthy rid = true ∧
       MIN_SIGNAL_STRENGTH ≤ s ∧ s ≤ MAX_SIGNAL_STRENGTH)) ∧
    (∃ r, mkRead 0 "E200123456789012345678AB" "r1" (-50) ⟨0, TZ.utc⟩ false
        = .ok r) ∧
    mkRead 0 "E200123456789012345678AB" "r1" (-7001/100) ⟨0, TZ.utc⟩ false
        = .error "Signal strength is below minimum" := by
  refine ⟨mkRead_isOk_iff id tag rid s rt ip, ?_, ?_⟩
  · exact ⟨_, mkRead_ok 0 _ _ _ _ _ (by decide) (by decide) (by decide)
      (by decide)⟩
  · have hb : validate_signal_strength (-7001/100) =
        (false, "Signal strength is below minimum") := by
      unfold validate_signal_strength
      rw [if_pos (by norm_num [MIN_SIGNAL_STRENGTH])]
    have htag : tagPatternMatch "E200123456789012345678AB" = true := by
      decide
    unfold mkRead
    rw [hb, htag]
    simp

/-! ## Claim C10 -/

/-- C10: `Read` construction never fails because of `read_time`: for every
`read_time`, when the other fields are valid, construction succeeds, and
the constructed read's `read_time` is tagged UTC with the wall-clock value
unchanged (a non-UTC tzinfo is silently replaced, not converted). -/
theorem c10_read_time_retag (id : ℕ) (tag rid : String) (s : ℚ)
    (rt : DateTime) (ip : Bool) (htag : tagPatternMatch tag = true)
    (hrid : stripTruthy rid = true) (hlo : MIN_SIGNAL_STRENGTH ≤ s)
    (hhi : s ≤ MAX_SIGNAL_STRENGTH) :
    ∃ r, mkRead id tag rid s rt ip = .ok r ∧
      r.read_time.tz = TZ.utc ∧ r.read_time.wall = rt.wall := by
  refine ⟨_, mkRead_ok id tag rid s rt ip htag hrid hlo hhi, ?_, ?_⟩ <;>
    · by_cases h : rt.tz = TZ.utc <;>
        simp [h, DateTime.replaceTzUtc]

/-- C10 witness: a concrete construction with a non-UTC `read_time`
succeeds and is re-tagged UTC with the same wall clock. -/
theorem c10_witness :
    ∃ r, mkRead 7 "abcdefABCDEF012345678901" "reader-1" (-42)
        ⟨5, TZ.nonUtc⟩ true = .ok r ∧
      r.read_time.tz = TZ.utc ∧ r.read_time.wall = (⟨5, TZ.nonUtc⟩ :
        DateTime).wall :=
  c10_read_time_retag 7 "abcdefABCDEF012345678901" "reader-1" (-42)
    ⟨5, TZ.nonUtc⟩ true (by decide) (by decide) (by decide) (by decide)

/-! ## Claim C4 -/

/-- C4: `update_status` succeeds iff the new status is allowed from the
current one by the transition matrix (OFFLINE→{ONLINE, MAINTENANCE},
ONLINE→{OFFLINE, ERROR, MAINTENANCE}, ERROR→{OFFLINE, MAINTENANCE},
MAINTENANCE→{OFFLINE}); on success `status_history` grows by exactly the
one entry carrying the old status, the new status and the reason, and the
status becomes the new one; a disallowed transition returns the typed
error, producing no updated reader. -/
theorem c4_status_transitions (r : Reader) (ns : ReaderStatus)
    (reason : String) (now : DateTime) :
    ((∃ r2, r.update_status ns reason now = .ok r2) ↔
      ns ∈ STATUS_TRANSITION_MATRIX r.status) ∧
    (∀ r2, r.update_status ns reason now = .ok r2 →
      r2.status = ns ∧
      r2.status_history = r.status_history ++
        [{ timestamp := now, status := none, old_status := some r.status,
           new_status := some ns, reason := reason }]) ∧
    (ns ∉ STATUS_TRANSITION_MATRIX r.status →
      r.update_status ns reason now = .error "Invalid status transition") := by
  unfold Reader.update_status
  by_cases h : ns ∈ STATUS_TRANSITION_MATRIX r.status
  · rw [if_neg (not_not_intro h)]
    refine ⟨⟨fun _ => h, fun _ => ⟨_, rfl⟩⟩, ?_, fun hn => absurd h hn⟩
    intro r2 h2
    injection h2 with h3
    subst h3
    exact ⟨rfl, rfl⟩
  · rw [if_pos h]
    refine ⟨⟨?_, fun hm => absurd hm h⟩, ?_, fun _ => rfl⟩
    · rintro ⟨r2, h2⟩
      exact absurd h2 (by simp)
    · intro r2 h2
      exact absurd h2 (by simp)

/-! ## Claim C9 -/

/-- A freshly constructed `Reader` (only the initial history entry): the
value `mkReader` returns for the inputs of `c9_is_healthy_eval`. -/
def c9readerA : Reader :=
  { id := 1, name := "dock-door-1", ip_address := "10.0.0.5", port := 5084,
    power_level := PowerLevel.LOW, read_interval_ms := 1000,
    status := ReaderStatus.OFFLINE, filtering_enabled := true,
    last_heartbeat := ⟨0, TZ.utc⟩,
    status_history := [{ timestamp := ⟨0, TZ.utc⟩,
                         status := some ReaderStatus.OFFLINE,
                         old_status := none, new_status := none,
                         reason := "Initial configuration" }],
    health_metrics := defaultHealthMetrics }

/-- A LOW-power reader whose history ends in an ERROR transition, with the
default rolling `signal_strength_avg = -45.0`. -/
def c9readerB : Reader :=
  { c9readerA with
    status := ReaderStatus.ERROR,
    status_history := c9readerA.status_history ++
      [{ timestamp := ⟨1, TZ.utc⟩, status := none,
         old_status := some ReaderStatus.ONLINE,
         new_status := some ReaderStatus.ERROR,
         reason := "Connection lost" }] }

/-- C9 evaluation of the source's `is_healthy` at the claim's failing
inputs: (1) on a freshly constructed reader, whose history holds only the
initial `__post_init__` entry (written without a `"new_status"` key), the
`last_error` scan raises `KeyError` instead of returning the dict with
`last_error = null`; (2) on a LOW-power reader with rolling average
`-45.0` dBm — outside LOW's dBm range `[-70, -55]` — `is_healthy` reports
`signal_strength_ok = true`, because it validates against the global
`[-70, -20]` range and never uses the `(min_dbm, max_dbm)` pair it reads
from `power_level.get_dbm_range()`. -/
theorem c9_is_healthy_eval :
    mkReader 1 "dock-door-1" "10.0.0.5" 5084 PowerLevel.LOW 1000
        ReaderStatus.OFFLINE true ⟨0, TZ.utc⟩ = .ok c9readerA ∧
    c9readerA.is_healthy ⟨10, TZ.utc⟩ = .error "KeyError: new_status" ∧
    Except.map (fun hs => hs.signal_strength_ok)
        (c9readerB.is_healthy ⟨10, TZ.utc⟩) = .ok true ∧
    (c9readerB.power_level.get_dbm_range).2 <
      c9readerB.health_metrics.signal_strength_avg := by
  refine ⟨by decide, by decide, by decide, by decide⟩

/-! ## Claim C1 -/

/-- A valid 24-hex-character tag for the concrete deduplication traces. -/
def TAG24 : String := "AAAAAAAAAAAAAAAAAAAAAAAA"

/-- A read of tag `TAG24` at time `t` (seconds, UTC) with signal `s`. -/
def dedupRead (n : ℕ) (t s : ℚ) : Read :=
  { id := n, rfid_tag := TAG24, reader_id := "r1", signal_strength := s,
    read_time := ⟨t, TZ.utc⟩, is_processed := false }

/-- A deduplicator with the default parameters (`time_window=5s`,
`signal_threshold=3dBm`, buffer cap 10000) and an empty buffer. -/
def dd0 : ReadDeduplicator :=
  { time_window_seconds := 5, signal_threshold_dbm := 3,
    max_buffer_size := 10000, read_buffer := [] }

/-- C1: for reads with in-range signal strengths, `_is_duplicate`
classifies the incoming read as a duplicate of the buffered one iff
`|Δread_time| ≤ time_window` and `|Δsignal| < signal_threshold` (strict);
and with `time_window=5s`, `signal_threshold=3dBm`, the one-tag batch
`(t=0, -50), (t=1, -51), (t=2, -47), (t=6.5, -50)` processed on an empty
buffer yields exactly the survivors at `t=0`, `t=2` and `t=6.5`. -/
theorem c1_dedup_predicate_and_trace (dd : ReadDeduplicator) (r e : Read)
    (hr : (validate_signal_strength r.signal_strength).1 = true)
    (he : (validate_signal_strength e.signal_strength).1 = true) :
    (dd.is_duplicate r e = true ↔
      (|r.read_time.timestamp - e.read_time.timestamp| ≤
          dd.time_window_seconds ∧
       |r.signal_strength - e.signal_strength| <
          dd.signal_threshold_dbm)) ∧
    (dd0.process_reads 0 [dedupRead 0 0 (-50), dedupRead 1 1 (-51),
        dedupRead 2 2 (-47), dedupRead 3 ((13/2 : ℚ)) (-50)]).1 =
      [dedupRead 0 0 (-50), dedupRead 2 2 (-47),
       dedupRead 3 ((13/2 : ℚ)) (-50)] := by
  constructor
  · unfold ReadDeduplicator.is_duplicate
    rw [if_neg (not_not_intro hr), if_neg (not_not_intro he)]
    by_cases ht : |r.read_time.timestamp - e.read_time.timestamp| >
        dd.time_window_seconds
    · rw [if_pos ht]
      simp only [Bool.false_eq_true, false_iff, not_and]
      intro hle _
      exact absurd ht (not_lt.mpr hle)
    · rw [if_neg ht]
      simp [decide_eq_true_iff, not_lt.mp ht]
  · norm_num [ReadDeduplicator.process_reads, ReadDeduplicator.clean_buffer,
      dedupLoop, bufGet, bufAppend, bufTotal, ReadDeduplicator.is_duplicate,
      validate_signal_strength, MIN_SIGNAL_STRENGTH, MAX_SIGNAL_STRENGTH,
      dedupRead, dd0, TAG24, DateTime.timestamp, abs_of_nonneg,
      abs_of_nonpos]

/-- C1 witness: the duplicate predicate instantiated at the reads
`(t=1, -51)` and `(t=0, -50)` of the trace, hypotheses discharged. -/
theorem c1_witness :
    (dd0.is_duplicate (dedupRead 1 1 (-51)) (dedupRead 0 0 (-50)) = true ↔
      (|(dedupRead 1 1 (-51)).read_time.timestamp -
          (dedupRead 0 0 (-50)).read_time.timestamp| ≤
          dd0.time_window_seconds ∧
       |(dedupRead 1 1 (-51)).signal_strength -
          (dedupRead 0 0 (-50)).signal_strength| <
          dd0.signal_threshold_dbm)) ∧
    (dd0.process_reads 0 [dedupRead 0 0 (-50), dedupRead 1 1 (-51),
        dedupRead 2 2 (-47), dedupRead 3 ((13/2 : ℚ)) (-50)]).1 =
      [dedupRead 0 0 (-50), dedupRead 2 2 (-47),
       dedupRead 3 ((13/2 : ℚ)) (-50)] :=
  c1_dedup_predicate_and_trace dd0 (dedupRead 1 1 (-51))
    (dedupRead 0 0 (-50)) (by decide) (by decide)

/-! ## Claim C6 -/

/-- A deduplicator whose buffer cap is already reached after one read. -/
def ddCap : ReadDeduplicator :=
  { time_window_seconds := 5, signal_threshold_dbm := 3,
    max_buffer_size := 1, read_buffer := [] }

/-- C6 counterexample: with `max_buffer_size = 1`, after buffering the
read `(t=0, -50)` of tag `TAG24`, the incoming read `(t=1, -46)` of the
SAME tag is not a duplicate of the buffered entry (signal difference
4 ≥ 3), so by the claim it must still be matched against its bucket and
emitted as distinct — but `process_reads` emits nothing: the cap check
`break`s out of the whole batch loop before any per-tag matching. -/
theorem c6_counterexample :
    ((ddCap.process_reads 0 [dedupRead 10 0 (-50)]).2.process_reads 1
        [dedupRead 11 1 (-46)]).1 = [] ∧
    bufGet ((ddCap.process_reads 0 [dedupRead 10 0 (-50)]).2).read_buffer
        TAG24 = [dedupRead 10 0 (-50)] ∧
    ((ddCap.process_reads 0 [dedupRead 10 0 (-50)]).2).is_duplicate
        (dedupRead 11 1 (-46)) (dedupRead 10 0 (-50)) = false := by
  refine ⟨?_, ?_, ?_⟩ <;>
    norm_num [ReadDeduplicator.process_reads, ReadDeduplicator.clean_buffer,
      dedupLoop, bufGet, bufAppend, bufTotal, ReadDeduplicator.is_duplicate,
      validate_signal_strength, MIN_SIGNAL_STRENGTH, MAX_SIGNAL_STRENGTH,
      dedupRead, ddCap, TAG24, DateTime.timestamp, abs_of_nonneg,
      abs_of_nonpos]

lemma bufTotal_append (buf : ReadBuffer) (tag : String) (r : Read) :
    bufTotal (bufAppend buf tag r) = bufTotal buf + 1 := by
  induction buf with
  | nil => simp [bufAppend, bufTotal]
  | cons p rest ih =>
    obtain ⟨t, rs⟩ := p
    by_cases h : t = tag <;>
      simp [bufAppend, h, bufTotal, ih] <;> omega

lemma dedupLoop_bufTotal_le (dd : ReadDeduplicator) (reads : List Read)
    (buf : ReadBuffer) (h : bufTotal buf ≤ dd.max_buffer_size) :
    bufTotal (dedupLoop dd buf reads).2 ≤ dd.max_buffer_size := by
  induction reads generalizing buf with
  | nil => simpa [dedupLoop]
  | cons r rest ih =>
    rw [dedupLoop]
    by_cases hfull : bufTotal buf ≥ dd.max_buffer_size
    · rw [if_pos hfull]
      exact h
    · rw [if_neg hfull]
      by_cases hdup :
          (bufGet buf r.rfid_tag).any (fun e => dd.is_duplicate r e) = true
      · rw [if_pos hdup]
        exact ih buf h
      · rw [if_neg hdup]
        have h2 : bufTotal (bufAppend buf r.rfid_tag r) ≤
            dd.max_buffer_size := by
          rw [bufTotal_append]
          omega
        have := ih (bufAppend buf r.rfid_tag r) h2
        rcases hE : dedupLoop dd (bufAppend buf r.rfid_tag r) rest with
          ⟨out, buf3⟩
        rw [hE] at this
        simpa [hE] using this

lemma bufTotal_filter_le (l : ReadBuffer) (g : String × List Read → Bool) :
    bufTotal (l.filter g) ≤ bufTotal l := by
  induction l with
  | nil => simp [bufTotal]
  | cons p rest ih =>
    by_cases h : g p = true <;>
      simp [List.filter, h, bufTotal] <;> omega

lemma bufTotal_map_filter_le (l : ReadBuffer) (q : Read → Bool) :
    bufTotal (l.map (fun p => (p.1, p.2.filter q))) ≤ bufTotal l := by
  induction l with
  | nil => simp [bufTotal]
  | cons p rest ih =>
    simp only [List.map_cons, bufTotal]
    have := p.2.length_filter_le q
    omega

lemma clean_bufTotal_le (dd : ReadDeduplicator) (now : ℚ) :
    bufTotal (dd.clean_buffer now).read_buffer ≤ bufTotal dd.read_buffer := by
  unfold ReadDeduplicator.clean_buffer
  exact le_trans (bufTotal_filter_le _ _) (bufTotal_map_filter_le _ _)

lemma clean_params (dd : ReadDeduplicator) (now : ℚ) :
    (dd.clean_buffer now).max_buffer_size = dd.max_buffer_size ∧
    (dd.clean_buffer now).time_window_seconds = dd.time_window_seconds ∧
    (dd.clean_buffer now).signal_threshold_dbm = dd.signal_threshold_dbm := by
  unfold ReadDeduplicator.clean_buffer
  exact ⟨rfl, rfl, rfl⟩

/-- C6 (amended): the deduplicator's buffer never exceeds
`max_buffer_size`; but once the total buffered reads (after expiry
cleaning) have reached the cap, the batch loop `break`s: the WHOLE
remaining batch is dropped and nothing is emitted — including reads whose
`rfid_tag` already has a buffered entry, which are not matched against
their bucket. -/
theorem c6_buffer_cap (dd : ReadDeduplicator) (now : ℚ) (reads : List Read)
    (hle : bufTotal dd.read_buffer ≤ dd.max_buffer_size) :
    bufTotal ((dd.process_reads now reads).2).read_buffer ≤
        dd.max_buffer_size ∧
    (bufTotal ((dd.clean_buffer now).read_buffer) ≥ dd.max_buffer_size →
      (dd.process_reads now reads).1 = []) := by
  unfold ReadDeduplicator.process_reads
  by_cases hempty : reads.isEmpty
  · rw [if_pos hempty]
    exact ⟨hle, fun _ => rfl⟩
  · rw [if_neg hempty]
    have hclean : bufTotal (dd.clean_buffer now).read_buffer ≤
        dd.max_buffer_size :=
      le_trans (clean_bufTotal_le dd now) hle
    obtain ⟨hmax, -, -⟩ := clean_params dd now
    constructor
    · rcases hE : dedupLoop (dd.clean_buffer now)
          (dd.clean_buffer now).read_buffer reads with ⟨out, buf⟩
      have := dedupLoop_bufTotal_le (dd.clean_buffer now) reads
        (dd.clean_buffer now).read_buffer (by rw [hmax]; exact hclean)
      rw [hE] at this
      rw [hmax] at this
      simpa [hE] using this
    · intro hfull
      cases reads with
      | nil => simp at hempty
      | cons r rest =>
        have hE : dedupLoop (dd.clean_buffer now)
            (dd.clean_buffer now).read_buffer (r :: rest) =
            ([], (dd.clean_buffer now).read_buffer) := by
          rw [dedupLoop]
          rw [if_pos (by rw [hmax]; exact hfull)]
        simp [hE]

/-- C6 witness: the cap invariant instantiated on the default deduplicator
and a one-read batch. -/
theorem c6_witness :
    bufTotal ((dd0.process_reads 0 [dedupRead 0 0 (-50)]).2).read_buffer ≤
        dd0.max_buffer_size ∧
    (bufTotal ((dd0.clean_buffer 0).read_buffer) ≥ dd0.max_buffer_size →
      (dd0.process_reads 0 [dedupRead 0 0 (-50)]).1 = []) :=
  c6_buffer_cap dd0 0 [dedupRead 0 0 (-50)] (by decide)

/-! ## Helper lemmas: the quality filter -/

/-- The quality score `calculate_read_quality` computes on a cache miss: 0
for an out-of-range signal, else `0.6 · normalized_signal + 0.4 · 1.0`
with `normalized_signal = (signal − MIN) / (MAX − MIN)`. -/
def qualityScore (read : Read) : ℚ :=
  if ¬ (validate_signal_strength read.signal_strength).1 then 0
  else
    (read.signal_strength - MIN_SIGNAL_STRENGTH) /
        (MAX_SIGNAL_STRENGTH - MIN_SIGNAL_STRENGTH) * (6/10) + 1 * (4/10)

/-- The cache only holds true quality scores, as described by a ghost
assignment `idSpec` of scores to read ids.  In the running service read
ids are unique (uuid4), so such an assignment exists. -/
def CacheResp (cache : ScoreCache) (idSpec : ℕ → ℚ) : Prop :=
  ∀ k q, cacheGet cache k = some q → q = idSpec k

lemma cacheGet_put (c : ScoreCache) (k : ℕ) (v : ℚ) (k2 : ℕ) :
    cacheGet (cachePut c k v) k2 = if k2 = k then some v else cacheGet c k2 := by
  induction c with
  | nil =>
    by_cases h : k2 = k
    · subst h
      simp [cachePut, cacheGet]
    · simp [cachePut, cacheGet, h, Ne.symm h]
  | cons p rest ih =>
    obtain ⟨k1, w⟩ := p
    by_cases h1 : k1 = k
    · subst h1
      by_cases h2 : k2 = k1
      · subst h2
        simp [cachePut, cacheGet]
      · simp [cachePut, cacheGet, h2, Ne.symm h2]
    · by_cases h2 : k2 = k1
      · subst h2
        simp [cachePut, cacheGet, h1]
      · simp [cachePut, cacheGet, h1, h2, Ne.symm h2, ih]

lemma calc_spec (idSpec : ℕ → ℚ) (f : ReadFilter) (r : Read)
    (hresp : CacheResp f.validation_cache idSpec)
    (hr : qualityScore r = idSpec r.id) :
    (f.calculate_read_quality r).1 = qualityScore r ∧
    CacheResp (f.calculate_read_quality r).2.validation_cache idSpec ∧
    (f.calculate_read_quality r).2 =
      { f with validation_cache :=
          (f.calculate_read_quality r).2.validation_cache } := by
  unfold ReadFilter.calculate_read_quality
  rcases hc : cacheGet f.validation_cache r.id with - | cached
  · by_cases hv : (validate_signal_strength r.signal_strength).1 = true
    · rw [qualityScore, if_neg (not_not_intro hv)]
      simp only [hc]
      rw [if_neg (not_not_intro hv)]
      refine ⟨rfl, ?_, trivial⟩
      intro k q hq
      rw [cacheGet_put] at hq
      by_cases hk : k = r.id
      · rw [if_pos hk] at hq
        cases hq
        rw [hk, ← hr, qualityScore, if_neg (not_not_intro hv)]
      · rw [if_neg hk] at hq
        exact hresp k q hq
    · rw [qualityScore, if_pos hv]
      simp only [hc]
      rw [if_pos hv]
      exact ⟨rfl, hresp, trivial⟩
  · simp only [hc]
    exact ⟨(hresp r.id cached hc).trans hr.symm, hresp, trivial⟩

lemma scoreAll_spec (idSpec : ℕ → ℚ) (rs : List Read) (f : ReadFilter)
    (hresp : CacheResp f.validation_cache idSpec)
    (hids : ∀ r ∈ rs, qualityScore r = idSpec r.id) :
    (scoreAll f rs).1 = rs.map qualityScore ∧
    CacheResp (scoreAll f rs).2.validation_cache idSpec ∧
    (scoreAll f rs).2 =
      { f with validation_cache := (scoreAll f rs).2.validation_cache } := by
  induction rs generalizing f with
  | nil => exact ⟨rfl, hresp, rfl⟩
  | cons r rest ih =>
    obtain ⟨hval, hresp1, hfields⟩ := calc_spec idSpec f r hresp
      (hids r (List.mem_cons_self r rest))
    obtain ⟨hval2, hresp2, hfields2⟩ := ih (f.calculate_read_quality r).2
      hresp1 (fun x hx => hids x (List.mem_cons_of_mem r hx))
    refine ⟨?_, ?_, ?_⟩
    · simp [scoreAll, hval, hval2]
    · simpa [scoreAll] using hresp2
    · rw [scoreAll]
      simp only
      rw [hfields2, hfields]

lemma zip_map_filter (θ : ℚ) (b : List Read) :
    (((b.zip (b.map qualityScore)).filter
        (fun p => decide (p.2 ≥ θ))).map Prod.fst) =
      b.filter (fun r => decide (qualityScore r ≥ θ)) := by
  induction b with
  | nil => simp
  | cons r rest ih =>
    by_cases h : qualityScore r ≥ θ <;> simp [h, ih]

lemma pba_spec (idSpec : ℕ → ℚ) (b : List Read) (f : ReadFilter)
    (hresp : CacheResp f.validation_cache idSpec)
    (hids : ∀ r ∈ b, qualityScore r = idSpec r.id)
    (hv : ∀ r ∈ b, (validate_signal_strength r.signal_strength).1 = true) :
    (f.process_batch_async b).1 =
      b.filter (fun r => decide (qualityScore r ≥ f.quality_threshold)) ∧
    CacheResp (f.process_batch_async b).2.validation_cache idSpec ∧
    (f.process_batch_async b).2 =
      { f with validation_cache :=
          (f.process_batch_async b).2.validation_cache } := by
  have htasks : b.filter
      (fun r => (validate_signal_strength r.signal_strength).1) = b :=
    List.filter_eq_self.mpr hv
  unfold ReadFilter.process_batch_async
  rw [htasks]
  cases b with
  | nil => exact ⟨rfl, hresp, rfl⟩
  | cons r rest =>
    obtain ⟨hval, hresp1, hfields⟩ := scoreAll_spec idSpec (r :: rest) f
      hresp hids
    rw [if_neg (by simp)]
    refine ⟨?_, ?_, ?_⟩
    · simp only [hval]
      exact zip_map_filter f.quality_threshold (r :: rest)
    · simpa using hresp1
    · simpa using hfields

lemma processBatches_spec (idSpec : ℕ → ℚ) (bs : List (List Read))
    (f : ReadFilter) (hresp : CacheResp f.validation_cache idSpec)
    (hids : ∀ b ∈ bs, ∀ r ∈ b, qualityScore r = idSpec r.id)
    (hv : ∀ b ∈ bs, ∀ r ∈ b,
      (validate_signal_strength r.signal_strength).1 = true) :
    (processBatches f bs).1.flatten = bs.flatten.filter
      (fun r => decide (qualityScore r ≥ f.quality_threshold)) ∧
    CacheResp (processBatches f bs).2.validation_cache idSpec ∧
    (processBatches f bs).2 =
      { f with validation_cache :=
          (processBatches f bs).2.validation_cache } := by
  induction bs generalizing f with
  | nil => exact ⟨rfl, hresp, rfl⟩
  | cons b rest ih =>
    obtain ⟨hout, hresp1, hfields⟩ := pba_spec idSpec b f hresp
      (hids b (List.mem_cons_self b rest))
      (hv b (List.mem_cons_self b rest))
    obtain ⟨hout2, hresp2, hfields2⟩ := ih (f.process_batch_async b).2
      hresp1 (fun x hx => hids x (List.mem_cons_of_mem b hx))
      (fun x hx => hv x (List.mem_cons_of_mem b hx))
    have hθ : (f.process_batch_async b).2.quality_threshold =
        f.quality_threshold := by rw [hfields]
    refine ⟨?_, ?_, ?_⟩
    · rw [processBatches]
      simp only [List.flatten_cons, List.filter_append]
      rw [hout]
      rw [hout2, hθ]
    · simpa [processBatches] using hresp2
    · rw [processBatches]
      simp only
      rw [hfields2, hfields]

lemma chunkList_flatten (n : ℕ) (l : List Read) :
    (chunkList n l).flatten = l := by
  induction l using chunkList.induct n with
  | case1 => simp [chunkList]
  | case2 x xs ih =>
    rw [chunkList]
    simp only [List.flatten_cons, List.cons_append]
    rw [ih]
    simp [List.take_append_drop]

lemma finalLoop_spec (idSpec : ℕ → ℚ) (rs : List Read) (f : ReadFilter)
    (hresp : CacheResp f.validation_cache idSpec)
    (hids : ∀ r ∈ rs, qualityScore r = idSpec r.id) :
    (finalFilterLoop f rs).1 = rs.filter
      (fun r => decide (qualityScore r ≥ f.quality_threshold)) ∧
    CacheResp (finalFilterLoop f rs).2.validation_cache idSpec ∧
    (finalFilterLoop f rs).2 =
      { f with validation_cache :=
          (finalFilterLoop f rs).2.validation_cache } := by
  induction rs generalizing f with
  | nil => exact ⟨rfl, hresp, rfl⟩
  | cons r rest ih =>
    obtain ⟨hval, hresp1, hfields⟩ := calc_spec idSpec f r hresp
      (hids r (List.mem_cons_self r rest))
    obtain ⟨hout2, hresp2, hfields2⟩ := ih (f.calculate_read_quality r).2
      hresp1 (fun x hx => hids x (List.mem_cons_of_mem r hx))
    have hθ : (f.calculate_read_quality r).2.quality_threshold =
        f.quality_threshold := by rw [hfields]
    rw [finalFilterLoop]
    by_cases hq : qualityScore r ≥ f.quality_threshold
    · rw [if_pos (by rw [hval]; exact hq)]
      refine ⟨?_, hresp2, ?_⟩
      · simp only [List.filter_cons]
        rw [hout2, hθ]
        simp [hq]
      · rw [hfields2, hfields]
    · rw [if_neg (by rw [hval]; exact hq)]
      refine ⟨?_, hresp2, ?_⟩
      · simp only [List.filter_cons]
        rw [hout2, hθ]
        simp [hq]
      · rw [hfields2, hfields]

lemma apply_filters_spec (idSpec : ℕ → ℚ) (reads : List Read)
    (f : ReadFilter) (hresp : CacheResp f.validation_cache idSpec)
    (hids : ∀ r ∈ reads, qualityScore r = idSpec r.id)
    (hv : ∀ r ∈ reads,
      (validate_signal_strength r.signal_strength).1 = true) :
    (f.apply_filters reads).1 = reads.filter
      (fun r => decide (qualityScore r ≥ f.quality_threshold)) ∧
    CacheResp (f.apply_filters reads).2.validation_cache idSpec ∧
    (f.apply_filters reads).2 =
      { f with validation_cache :=
          (f.apply_filters reads).2.validation_cache } := by
  unfold ReadFilter.apply_filters
  by_cases hempty : reads.isEmpty
  · rw [if_pos hempty]
    rw [List.isEmpty_iff.mp hempty]
    exact ⟨rfl, hresp, rfl⟩
  · rw [if_neg hempty]
    have hmem : ∀ b ∈ chunkList f.batch_size reads, ∀ r ∈ b, r ∈ reads := by
      intro b hb r hr
      have : r ∈ (chunkList f.batch_size reads).flatten :=
        List.mem_flatten.mpr ⟨b, hb, hr⟩
      rwa [chunkList_flatten] at this
    obtain ⟨hout, hresp1, hfields⟩ := processBatches_spec idSpec
      (chunkList f.batch_size reads) f hresp
      (fun b hb r hr => hids r (hmem b hb r hr))
      (fun b hb r hr => hv r (hmem b hb r hr))
    have hflat : (processBatches f (chunkList f.batch_size reads)).1.flatten
        = reads.filter (fun r =>
            decide (qualityScore r ≥ f.quality_threshold)) := by
      rw [hout, chunkList_flatten]
    obtain ⟨hout2, hresp2, hfields2⟩ := finalLoop_spec idSpec
      (processBatches f (chunkList f.batch_size reads)).1.flatten
      (processBatches f (chunkList f.batch_size reads)).2
      hresp1
      (fun r hr => hids r (by
        rw [hflat] at hr
        exact List.mem_of_mem_filter hr))
    have hθ : (processBatches f
        (chunkList f.batch_size reads)).2.quality_threshold
        = f.quality_threshold := by rw [hfields]
    refine ⟨?_, ?_, ?_⟩
    · simp only
      rw [hout2, hθ, hflat, List.filter_filter]
      simp
    · simpa using hresp2
    · simp only
      rw [hfields2, hfields]

/-! ## Claim C3 -/

/-- A quality filter with the default thresholds
(`quality_threshold = 0.7`) and an empty cache. -/
def f0 : ReadFilter :=
  { quality_threshold := 7/10, confidence_threshold := 8/10,
    batch_size := 100, validation_cache := [] }

/-- C3: on a batch of (constructible) reads — all signal strengths in
range, ids consistent with a ghost score assignment, cache coherent —
`apply_filters` returns exactly the order-preserving subsequence of reads
whose quality score reaches `quality_threshold`, where the score is
`0.6 · (s − (−70))/50 + 0.4 · 1.0` for in-range `s` and `0.0` otherwise;
at threshold 0.7 a read at `-20.0` dBm scores 1.0 (accepted) and a read at
`-65.0` dBm scores 0.46 (rejected). -/
theorem c3_quality_filter (f : ReadFilter) (reads : List Read)
    (idSpec : ℕ → ℚ)
    (hv : ∀ r ∈ reads, (validate_signal_strength r.signal_strength).1 = true)
    (hids : ∀ r ∈ reads, qualityScore r = idSpec r.id)
    (hresp : CacheResp f.validation_cache idSpec) :
    (f.apply_filters reads).1 = reads.filter
      (fun r => decide (qualityScore r ≥ f.quality_threshold)) ∧
    (f.apply_filters reads).1.Sublist reads ∧
    (∀ r : Read, (validate_signal_strength r.signal_strength).1 = true →
      qualityScore r = (r.signal_strength - MIN_SIGNAL_STRENGTH) /
        (MAX_SIGNAL_STRENGTH - MIN_SIGNAL_STRENGTH) * (6/10) + 1 * (4/10)) ∧
    (∀ r : Read, (validate_signal_strength r.signal_strength).1 ≠ true →
      qualityScore r = 0) ∧
    qualityScore (dedupRead 100 0 (-20)) = 1 ∧
    qualityScore (dedupRead 101 0 (-65)) = 46/100 ∧
    ((1 : ℚ) ≥ 7/10 ∧ ¬ ((46/100 : ℚ) ≥ 7/10)) := by
  obtain ⟨hout, -, -⟩ := apply_filters_spec idSpec reads f hresp hids hv
  refine ⟨hout, ?_, ?_, ?_, ?_, ?_, by norm_num, by norm_num⟩
  · rw [hout]
    exact List.filter_sublist reads
  · intro r hr
    rw [qualityScore, if_neg (not_not_intro hr)]
  · intro r hr
    rw [qualityScore, if_pos hr]
  · norm_num [qualityScore, validate_signal_strength, dedupRead,
      MIN_SIGNAL_STRENGTH, MAX_SIGNAL_STRENGTH]
  · norm_num [qualityScore, validate_signal_strength, dedupRead,
      MIN_SIGNAL_STRENGTH, MAX_SIGNAL_STRENGTH]

/-- C3 witness: the filter characterization instantiated on the default
filter with the one-read batch at `-20.0` dBm, hypotheses discharged. -/
theorem c3_witness :
    (f0.apply_filters [dedupRead 100 0 (-20)]).1 =
      [dedupRead 100 0 (-20)].filter
        (fun r => decide (qualityScore r ≥ f0.quality_threshold)) ∧
    (f0.apply_filters [dedupRead 100 0 (-20)]).1.Sublist
      [dedupRead 100 0 (-20)] ∧
    (∀ r : Read, (validate_signal_strength r.signal_strength).1 = true →
      qualityScore r = (r.signal_strength - MIN_SIGNAL_STRENGTH) /
        (MAX_SIGNAL_STRENGTH - MIN_SIGNAL_STRENGTH) * (6/10) + 1 * (4/10)) ∧
    (∀ r : Read, (validate_signal_strength r.signal_strength).1 ≠ true →
      qualityScore r = 0) ∧
    qualityScore (dedupRead 100 0 (-20)) = 1 ∧
    qualityScore (dedupRead 101 0 (-65)) = 46/100 ∧
    ((1 : ℚ) ≥ 7/10 ∧ ¬ ((46/100 : ℚ) ≥ 7/10)) :=
  c3_quality_filter f0 [dedupRead 100 0 (-20)] (fun _ => 1)
    (by
      intro r hr
      rw [List.mem_singleton] at hr
      subst hr
      decide)
    (by
      intro r hr
      rw [List.mem_singleton] at hr
      subst hr
      norm_num [qualityScore, validate_signal_strength, dedupRead,
        MIN_SIGNAL_STRENGTH, MAX_SIGNAL_STRENGTH])
    (by
      intro k q h
      simp [f0, cacheGet] at h)

/-! ## Claim C8 -/

/-- C8: the quality filter is idempotent on accepted reads (the scoring
has no varying time factor): filtering the output of `apply_filters` again
— with the filter state the first call returned — gives the same list. -/
theorem c8_filter_idempotent (f : ReadFilter) (reads : List Read)
    (idSpec : ℕ → ℚ)
    (hv : ∀ r ∈ reads, (validate_signal_strength r.signal_strength).1 = true)
    (hids : ∀ r ∈ reads, qualityScore r = idSpec r.id)
    (hresp : CacheResp f.validation_cache idSpec) :
    ((f.apply_filters reads).2.apply_filters (f.apply_filters reads).1).1 =
      (f.apply_filters reads).1 := by
  obtain ⟨hout, hresp1, hfields⟩ :=
    apply_filters_spec idSpec reads f hresp hids hv
  have hθ : (f.apply_filters reads).2.quality_threshold =
      f.quality_threshold := by rw [hfields]
  have hsub : ∀ r ∈ (f.apply_filters reads).1, r ∈ reads := by
    rw [hout]
    intro r hr
    exact List.mem_of_mem_filter hr
  obtain ⟨hout2, -, -⟩ := apply_filters_spec idSpec (f.apply_filters reads).1
    (f.apply_filters reads).2 hresp1
    (fun r hr => hids r (hsub r hr)) (fun r hr => hv r (hsub r hr))
  rw [hout2, hθ, hout, List.filter_filter]
  simp

/-- C8 witness: idempotence instantiated on the default filter with a
one-read batch at `-30.0` dBm (score 0.88, accepted), hypotheses
discharged. -/
theorem c8_witness :
    ((f0.apply_filters [dedupRead 102 0 (-30)]).2.apply_filters
        (f0.apply_filters [dedupRead 102 0 (-30)]).1).1 =
      (f0.apply_filters [dedupRead 102 0 (-30)]).1 :=
  c8_filter_idempotent f0 [dedupRead 102 0 (-30)] (fun _ => 22/25)
    (by
      intro r hr
      rw [List.mem_singleton] at hr
      subst hr
      decide)
    (by
      intro r hr
      rw [List.mem_singleton] at hr
      subst hr
      norm_num [qualityScore, validate_signal_strength, dedupRead,
        MIN_SIGNAL_STRENGTH, MAX_SIGNAL_STRENGTH])
    (by
      intro k q h
      simp [f0, cacheGet] at h)

/-! ## Helper lemmas: batch sizes through the pipeline -/

lemma pba_length_le (f : ReadFilter) (b : List Read) :
    (f.process_batch_async b).1.length ≤ b.length := by
  unfold ReadFilter.process_batch_async
  rcases hS : scoreAll f (b.filter
      (fun r => (validate_signal_strength r.signal_strength).1)) with ⟨qs, f1⟩
  cases hEmpty : (b.filter
      (fun r => (validate_signal_strength r.signal_strength).1)).isEmpty
  · simp only [hEmpty, hS, Bool.false_eq_true, if_false]
    calc (((b.zip qs).filter
          (fun p => decide (p.2 ≥ f.quality_threshold))).map Prod.fst).length
        = ((b.zip qs).filter
            (fun p => decide (p.2 ≥ f.quality_threshold))).length := by
          rw [List.length_map]
      _ ≤ (b.zip qs).length := List.length_filter_le _ _
      _ ≤ b.length := by
          rw [List.length_zip]
          omega
  · simp [hEmpty]

lemma dedupLoop_length_le (dd : ReadDeduplicator) (reads : List Read)
    (buf : ReadBuffer) :
    (dedupLoop dd buf reads).1.length ≤ reads.length := by
  induction reads generalizing buf with
  | nil => simp [dedupLoop]
  | cons r rest ih =>
    rw [dedupLoop]
    by_cases hfull : bufTotal buf ≥ dd.max_buffer_size
    · rw [if_pos hfull]
      simp
    · rw [if_neg hfull]
      by_cases hdup :
          (bufGet buf r.rfid_tag).any (fun e => dd.is_duplicate r e) = true
      · rw [if_pos hdup]
        exact le_trans (ih buf) (Nat.le_succ _)
      · rw [if_neg hdup]
        rcases hE : dedupLoop dd (bufAppend buf r.rfid_tag r) rest with
          ⟨out, buf3⟩
        have hlen := ih (bufAppend buf r.rfid_tag r)
        rw [hE] at hlen
        simp only [hE, List.length_cons]
        simpa using Nat.succ_le_succ hlen

lemma process_reads_length_le (dd : ReadDeduplicator) (now : ℚ)
    (reads : List Read) :
    (dd.process_reads now reads).1.length ≤ reads.length := by
  unfold ReadDeduplicator.process_reads
  by_cases h : reads.isEmpty
  · rw [if_pos h]
    simp
  · rw [if_neg h]
    rcases hE : dedupLoop (dd.clean_buffer now)
        (dd.clean_buffer now).read_buffer reads with ⟨out, buf⟩
    have hlen := dedupLoop_length_le (dd.clean_buffer now) reads
      (dd.clean_buffer now).read_buffer
    rw [hE] at hlen
    simpa [hE] using hlen

lemma processBatches_length_le (f : ReadFilter) (bs : List (List Read)) :
    (processBatches f bs).1.flatten.length ≤ bs.flatten.length := by
  induction bs generalizing f with
  | nil => simp [processBatches]
  | cons b rest ih =>
    rw [processBatches]
    rcases hP : f.process_batch_async b with ⟨pb, f1⟩
    rcases hR : processBatches f1 rest with ⟨pbs, f2⟩
    have h1 : pb.length ≤ b.length := by
      have := pba_length_le f b
      rw [hP] at this
      exact this
    have h2 : pbs.flatten.length ≤ rest.flatten.length := by
      have := ih f1
      rw [hR] at this
      exact this
    simp only [hP, hR, List.flatten_cons, List.length_append]
    omega

lemma finalLoop_length_le (f : ReadFilter) (rs : List Read) :
    (finalFilterLoop f rs).1.length ≤ rs.length := by
  induction rs generalizing f with
  | nil => simp [finalFilterLoop]
  | cons r rest ih =>
    rw [finalFilterLoop]
    by_cases hq : (f.calculate_read_quality r).1 ≥ f.quality_threshold
    · rw [if_pos hq]
      simpa using ih (f.calculate_read_quality r).2
    · rw [if_neg hq]
      exact le_trans (ih (f.calculate_read_quality r).2) (Nat.le_succ _)

lemma apply_filters_length_le (f : ReadFilter) (reads : List Read) :
    (f.apply_filters reads).1.length ≤ reads.length := by
  unfold ReadFilter.apply_filters
  by_cases h : reads.isEmpty
  · rw [if_pos h]
    simp
  · rw [if_neg h]
    rcases hB : processBatches f (chunkList f.batch_size reads) with ⟨pbs, f1⟩
    have h1 := processBatches_length_le f (chunkList f.batch_size reads)
    rw [hB, chunkList_flatten] at h1
    have h2 := finalLoop_length_le f1 pbs.flatten
    simp only [hB]
    exact le_trans h2 h1

/-! ## Claim C5 -/

/-- The pipeline invariant: the bounded queue never exceeds its capacity,
and every received read is accounted for as processed, dropped or still
queued. -/
def PInv (p : ReadProcessor) : Prop :=
  p.queue.length ≤ p.maxsize ∧
  p.reads_received ≥ p.processed_count + p.drops + p.queue.length

lemma pinv_process_read (p : ReadProcessor) (read : Read) (h : PInv p) :
    PInv (p.process_read read).2 := by
  unfold ReadProcessor.process_read
  by_cases hv : (validate_signal_strength read.signal_strength).1 = true
  · rw [if_neg (not_not_intro hv)]
    by_cases hfull : p.queue.length ≥ p.maxsize
    · rw [if_pos hfull]
      obtain ⟨h1, h2⟩ := h
      exact ⟨h1, by simp; omega⟩
    · rw [if_neg hfull]
      obtain ⟨h1, h2⟩ := h
      constructor
      · simp [List.length_append]
        omega
      · simp [List.length_append]
        omega
  · rw [if_pos hv]
    exact h

lemma pinv_stepBatch (p : ReadProcessor) (k : ℕ) (now : ℚ) (h : PInv p) :
    PInv (p.stepBatch k now) := by
  unfold ReadProcessor.stepBatch
  obtain ⟨h1, h2⟩ := h
  by_cases hbe : (p.queue.take k).isEmpty
  · rw [if_pos hbe]
    constructor
    · simp [List.length_drop]
      omega
    · simp [List.length_drop]
      omega
  · rw [if_neg hbe]
    rcases hF : p.filter.apply_filters (p.queue.take k) with ⟨fr, f1⟩
    rcases hD : p.dedup.process_reads now fr with ⟨dr, d1⟩
    have hl1 : fr.length ≤ min k p.queue.length := by
      have := apply_filters_length_le p.filter (p.queue.take k)
      rw [hF, List.length_take] at this
      exact this
    have hl2 : dr.length ≤ fr.length := by
      have := process_reads_length_le p.dedup now fr
      rw [hD] at this
      exact this
    constructor
    · simp [hF, hD, List.length_drop]
      omega
    · simp [hF, hD, List.length_drop]
      omega

lemma pinv_reachable (p0 p : ReadProcessor) (h0 : PInv p0)
    (h : PReachable p0 p) : PInv p := by
  induction h with
  | refl => exact h0
  | tail hsteps hstep ih =>
    cases hstep with
    | ingress read => exact pinv_process_read _ read ih
    | batch k now => exact pinv_stepBatch _ k now ih

/-- C5: in every state reachable from a freshly constructed pipeline, the
ingress queue holds at most its configured capacity and
`reads_received ≥ reads_processed + drops`; and whenever the queue is
full, `process_read` returns the backpressure rejection (`False`) without
blocking and without enqueueing the read. -/
theorem c5_pipeline_backpressure (tw θ qθ : ℚ) (cap : ℕ)
    (p : ReadProcessor)
    (h : PReachable (mkReadProcessor tw θ qθ cap) p) :
    (p.queue.length ≤ p.maxsize ∧
     p.reads_received ≥ p.processed_count + p.drops) ∧
    (∀ read : Read, p.queue.length ≥ p.maxsize →
      (p.process_read read).1 = false ∧
      (p.process_read read).2.queue = p.queue) := by
  have hinv := pinv_reachable (mkReadProcessor tw θ qθ cap) p
    (by constructor <;> simp [mkReadProcessor]) h
  constructor
  · obtain ⟨h1, h2⟩ := hinv
    exact ⟨h1, by omega⟩
  · intro read hfull
    unfold ReadProcessor.process_read
    by_cases hv : (validate_signal_strength read.signal_strength).1 = true
    · rw [if_neg (not_not_intro hv)]
      rw [if_pos hfull]
      exact ⟨rfl, rfl⟩
    · rw [if_pos hv]
      exact ⟨rfl, rfl⟩

/-- C5 witness: the invariant and the backpressure behaviour at the
freshly constructed pipeline itself. -/
theorem c5_witness :
    ((mkReadProcessor 5 3 (7/10) 10000).queue.length ≤
        (mkReadProcessor 5 3 (7/10) 10000).maxsize ∧
     (mkReadProcessor 5 3 (7/10) 10000).reads_received ≥
        (mkReadProcessor 5 3 (7/10) 10000).processed_count +
          (mkReadProcessor 5 3 (7/10) 10000).drops) ∧
    (∀ read : Read,
      (mkReadProcessor 5 3 (7/10) 10000).queue.length ≥
        (mkReadProcessor 5 3 (7/10) 10000).maxsize →
      ((mkReadProcessor 5 3 (7/10) 10000).process_read read).1 = false ∧
      ((mkReadProcessor 5 3 (7/10) 10000).process_read read).2.queue =
        (mkReadProcessor 5 3 (7/10) 10000).queue) :=
  c5_pipeline_backpressure 5 3 (7/10) 10000 (mkReadProcessor 5 3 (7/10) 10000)
    Relation.ReflTransGen.refl

/-! ## Claim C7 -/

/-- A pipeline state with 100 processed reads and 20 recorded errors: the
error rate 20% exceeds the 15% circuit-breaker threshold. -/
def p7 : ReadProcessor :=
  { mkReadProcessor 5 3 (7/10) 10000 with
    processed_count := 100, error_counts_total := 20 }

/-- C7 evaluation of the source at the claim's scenario: with
`errors = 20` and `processed = 100` the error rate 20% exceeds the 15%
threshold, `_check_error_threshold` returns true and the loop's `except`
branch pauses 1 s — but `process_read` still validates, accepts and
enqueues the next read: the source has no tripped state, never rejects
ingress with a circuit-open signal, and computes the rate over lifetime
totals (`_error_counts`, which no code path even updates), not over a
rolling 300 s window. -/
theorem c7_circuit_breaker_eval :
    p7.check_error_threshold = true ∧
    p7.loopErrorPauseSeconds = 1 ∧
    (p7.process_read (dedupRead 200 0 (-50))).1 = true ∧
    (p7.process_read (dedupRead 200 0 (-50))).2.queue =
      [dedupRead 200 0 (-50)] := by
  have hthr : p7.check_error_threshold = true := by
    norm_num [ReadProcessor.check_error_threshold, p7, mkReadProcessor,
      CIRCUIT_BREAKER_THRESHOLD]
  refine ⟨hthr, ?_, ?_, ?_⟩
  · rw [ReadProcessor.loopErrorPauseSeconds, if_pos hthr]
  · norm_num [ReadProcessor.process_read, p7, mkReadProcessor,
      validate_signal_strength, MIN_SIGNAL_STRENGTH, MAX_SIGNAL_STRENGTH,
      dedupRead]
  · norm_num [ReadProcessor.process_read, p7, mkReadProcessor,
      validate_signal_strength, MIN_SIGNAL_STRENGTH, MAX_SIGNAL_STRENGTH,
      dedupRead]

end RFID
